import Mathlib

/-!
Verification of the live behavioral-analytics engine:
shallow embedding of the audio worklet (`analyzer.worklet.js`), the face
worker (`faceWorker.ts`), the GoEmotions classifier (`goemotions.ts`) and
the metrics aggregator (`analyticsController.ts`), together with proofs
about the embedded definitions.

Numbers are modelled as rationals (`ℚ`); the square roots taken by the
RMS, eye-distance and gaze-jitter computations land in `ℝ` via
`Real.sqrt`.  Timestamps (`Date.now()` milliseconds) are integers.
Division by zero follows Lean's `x / 0 = 0` convention; concrete inputs
used in counterexamples are chosen so that no division by zero occurs.
-/

/-! ## Audio worklet: `analyzer.worklet.js` -/

/-- `MIN_PITCH_HZ` from the worklet. -/
def MIN_PITCH_HZ : ℚ := 75

/-- `MAX_PITCH_HZ` from the worklet. -/
def MAX_PITCH_HZ : ℚ := 400

/-- `computeRMS(samples)`: root mean square of the frame,
`Math.sqrt(sum / samples.length)` where `sum` accumulates `s*s`. -/
noncomputable def computeRMS (samples : List ℚ) : ℝ :=
  Real.sqrt ((((samples.map (fun s => s * s)).sum : ℚ) : ℝ) / samples.length)

/-- The inner correlation loop of `computePitch` at a fixed `period`:
`corr += samples[i] * samples[i + period]` for `0 ≤ i < length - period`.
Out-of-range accesses cannot occur in the source loop; `getD` with
default `0` returns the actual sample at every index used. -/
def corrAt (samples : List ℚ) (period : ℕ) : ℚ :=
  ((List.range (samples.length - period)).map
    (fun i => samples.getD i 0 * samples.getD (i + period) 0)).sum

/-- The autocorrelation search of `computePitch`: scan the periods in
increasing order keeping `(maxCorr, bestPeriod)`, updating only on a
strictly larger correlation. -/
def pitchSearch (samples : List ℚ) (periods : List ℕ) : ℚ × ℕ :=
  periods.foldl
    (fun acc period =>
      let corr := corrAt samples period
      if corr > acc.1 then (corr, period) else acc)
    (0, 0)

/-- `computePitch(samples, sampleRate)`: autocorrelation pitch estimate.
Periods range over `floor(rate/MAX_PITCH_HZ) .. floor(rate/MIN_PITCH_HZ)`;
the candidate is rejected (result `0`) unless its correlation reaches
`0.3` of the total frame energy and the best period is nonzero. -/
def computePitch (samples : List ℚ) (sampleRate : ℚ) : ℚ :=
  let minPeriod := (⌊sampleRate / MAX_PITCH_HZ⌋).toNat
  let maxPeriod := (⌊sampleRate / MIN_PITCH_HZ⌋).toNat
  let periods := (List.range (maxPeriod + 1 - minPeriod)).map (· + minPeriod)
  let res := pitchSearch samples periods
  let maxCorr := res.1
  let bestPeriod := res.2
  let energy := (samples.map (fun s => s * s)).sum
  if maxCorr < energy * (3/10) ∨ bestPeriod = 0 then 0
  else sampleRate / (bestPeriod : ℚ)

/-! ## Face worker: `faceWorker.ts` -/

/-- A landmark keypoint (MediaPipe face mesh). -/
structure Pt where
  x : ℝ
  y : ℝ

/-- `LEFT_EYE_INDICES` from the worker. -/
def LEFT_EYE_INDICES : List ℕ := [33, 160, 158, 133, 153, 144]

/-- `RIGHT_EYE_INDICES` from the worker. -/
def RIGHT_EYE_INDICES : List ℕ := [362, 385, 387, 263, 373, 380]

/-- `MOUTH_INDICES` from the worker (left, right, top, bottom). -/
def MOUTH_INDICES : List ℕ := [61, 291, 0, 17]

/-- `NOSE_TIP` landmark index. -/
def NOSE_TIP : ℕ := 1

/-- `NOSE_BRIDGE` landmark index. -/
def NOSE_BRIDGE : ℕ := 6

/-- The local `distance` helper of `calculateEAR`:
`Math.sqrt((p1.x - p2.x) ** 2 + (p1.y - p2.y) ** 2)`. -/
noncomputable def distance (p1 p2 : Pt) : ℝ :=
  Real.sqrt ((p1.x - p2.x) ^ 2 + (p1.y - p2.y) ^ 2)

/-- `calculateEAR(eyePoints)`: eye aspect ratio
`(vertical1 + vertical2) / (2 * horizontal)`, `1.0` when fewer than six
points are available.  In the source the six accesses are in bounds, so
`getD` with default `⟨0,0⟩` returns the actual points. -/
noncomputable def calculateEAR (eyePoints : List Pt) : ℝ :=
  if eyePoints.length < 6 then 1
  else
    let vertical1 := distance (eyePoints.getD 1 ⟨0, 0⟩) (eyePoints.getD 5 ⟨0, 0⟩)
    let vertical2 := distance (eyePoints.getD 2 ⟨0, 0⟩) (eyePoints.getD 4 ⟨0, 0⟩)
    let horizontal := distance (eyePoints.getD 0 ⟨0, 0⟩) (eyePoints.getD 3 ⟨0, 0⟩)
    (vertical1 + vertical2) / (2 * horizontal)

/-- `calculateMAR(mouthPoints)`: mouth aspect ratio
`width / (height + 0.001)`, `0` when fewer than four points. -/
noncomputable def calculateMAR (mouthPoints : List Pt) : ℝ :=
  if mouthPoints.length < 4 then 0
  else
    let width := |(mouthPoints.getD 0 ⟨0, 0⟩).x - (mouthPoints.getD 1 ⟨0, 0⟩).x|
    let height := |(mouthPoints.getD 2 ⟨0, 0⟩).y - (mouthPoints.getD 3 ⟨0, 0⟩).y|
    width / (height + (1/1000 : ℝ))

/-- `calculateHeadPose(landmarks)`: heuristic yaw/pitch in degrees with
clamping to `±90` / `±45`; `(0,0)` when fewer than ten landmarks or a
needed landmark is missing (`undefined` in JS, `none` here). -/
noncomputable def calculateHeadPose (landmarks : List Pt) : ℝ × ℝ :=
  if landmarks.length < 10 then (0, 0)
  else
    match landmarks[NOSE_TIP]?, landmarks[NOSE_BRIDGE]?,
        landmarks[LEFT_EYE_INDICES.getD 0 0]?, landmarks[RIGHT_EYE_INDICES.getD 0 0]? with
    | some noseTip, some noseBridge, some leftEye, some rightEye =>
      let eyeCenter : Pt := ⟨(leftEye.x + rightEye.x) / 2, (leftEye.y + rightEye.y) / 2⟩
      let yawRatio := (noseTip.x - eyeCenter.x) / |leftEye.x - rightEye.x|
      let yaw := yawRatio * 45
      let pitchRatio := (noseTip.y - noseBridge.y) / |leftEye.y - noseTip.y|
      let pitch := pitchRatio * 30
      (max (-90) (min 90 yaw), max (-45) (min 45 pitch))
    | _, _, _, _ => (0, 0)

/-- The worker's blink-tracking module state: `lastEyeAspectRatio`,
`blinkCount` and the rolling `blinkTimestamps` array.  Parametrised over
the number field so that the same definition serves both proofs over
`ℚ` sequences and the `ℝ`-valued frame analysis. -/
structure BlinkState (α : Type) where
  lastEyeAspectRatio : α
  blinkCount : ℕ
  blinkTimestamps : List ℤ

/-- `updateBlinkRate(ear, currentTime)`: a blink is a transition of the
average eye aspect ratio from strictly above `BLINK_THRESHOLD = 0.25` to
at-or-below it; timestamps older than `WINDOW_MS = 60000` are shifted
off the front; returns the number of in-window blinks. -/
def updateBlinkRate {α : Type} [LinearOrderedField α] (ear : α) (currentTime : ℤ)
    (st : BlinkState α) : ℕ × BlinkState α :=
  let stA : BlinkState α :=
    if st.lastEyeAspectRatio > 1/4 ∧ ear ≤ 1/4 then
      ⟨ear, st.blinkCount + 1, st.blinkTimestamps ++ [currentTime]⟩
    else ⟨ear, st.blinkCount, st.blinkTimestamps⟩
  let cutoff := currentTime - 60000
  let stamps := stA.blinkTimestamps.dropWhile (fun ts => ts < cutoff)
  (stamps.length, ⟨stA.lastEyeAspectRatio, stA.blinkCount, stamps⟩)

/-- One entry of the worker's `gazePositions` array. -/
structure GazePos where
  x : ℝ
  y : ℝ
  t : ℤ

/-- `calculateGazeJitter(landmarks, currentTime)`: scaled standard
deviation of the eye-center position over a 5-second window; `0` (with
the position buffer untouched) when fewer than 400 landmarks, and `0`
when fewer than two in-window positions. -/
noncomputable def calculateGazeJitter (landmarks : List Pt) (currentTime : ℤ)
    (gazePositions : List GazePos) : ℝ × List GazePos :=
  if landmarks.length < 400 then (0, gazePositions)
  else
    match landmarks[LEFT_EYE_INDICES.getD 0 0]?, landmarks[RIGHT_EYE_INDICES.getD 0 0]? with
    | some leftEye, some rightEye =>
      let eyeCenter : GazePos :=
        ⟨(leftEye.x + rightEye.x) / 2, (leftEye.y + rightEye.y) / 2, currentTime⟩
      let ps := (gazePositions ++ [eyeCenter]).dropWhile (fun p => p.t < currentTime - 5000)
      if ps.length < 2 then (0, ps)
      else
        let meanX := (ps.map (fun p => p.x)).sum / (ps.length : ℝ)
        let meanY := (ps.map (fun p => p.y)).sum / (ps.length : ℝ)
        let variance :=
          (ps.map (fun p => (p.x - meanX) ^ 2 + (p.y - meanY) ^ 2)).sum / (ps.length : ℝ)
        (Real.sqrt variance * 1000, ps)
    | _, _ => (0, gazePositions)

/-- `FaceAnalysisMessage`: the per-cycle result posted by the worker. -/
structure FaceAnalysisMessage where
  yaw : ℝ
  pitch : ℝ
  blinkPerMin : ℕ
  smile : ℝ
  gazeJitter : ℝ

/-- The worker's mutable module state read and written by `analyzeFrame`. -/
structure FaceState where
  blink : BlinkState ℝ
  gazePositions : List GazePos

/-- The worker's module state at load time:
`lastEyeAspectRatio = 1.0`, `blinkCount = 0`, empty arrays. -/
def faceState0 : FaceState := ⟨⟨1, 0, []⟩, []⟩

/-- `analyzeFrame(bitmap)`: one analysis cycle.  The face-detector
output is modelled as `none` (no face) or `some landmarks` (the first
face's keypoints).  With no face the neutral message is returned and the
module state is untouched; otherwise head pose, EAR/blink, MAR/smile and
gaze jitter are computed as in the source (`filter(Boolean)` on the
landmark lookups becomes `reduceOption`). -/
noncomputable def analyzeFrame (faces : Option (List Pt)) (currentTime : ℤ)
    (st : FaceState) : FaceAnalysisMessage × FaceState :=
  match faces with
  | none => (⟨0, 0, 0, 0, 0⟩, st)
  | some landmarks =>
    let hp := calculateHeadPose landmarks
    let leftEyePoints := (LEFT_EYE_INDICES.map (fun i => landmarks[i]?)).reduceOption
    let rightEyePoints := (RIGHT_EYE_INDICES.map (fun i => landmarks[i]?)).reduceOption
    let leftEAR := calculateEAR leftEyePoints
    let rightEAR := calculateEAR rightEyePoints
    let avgEAR := (leftEAR + rightEAR) / 2
    let blinkRes := updateBlinkRate avgEAR currentTime st.blink
    let mouthPoints := (MOUTH_INDICES.map (fun i => landmarks[i]?)).reduceOption
    let mar := calculateMAR mouthPoints
    let smile := min 1 (max 0 ((mar - 3) / 2))
    let gazeRes := calculateGazeJitter landmarks currentTime st.gazePositions
    (⟨hp.1, hp.2, blinkRes.1, smile, gazeRes.1⟩, ⟨blinkRes.2, gazeRes.2⟩)

/-- Folding `updateBlinkRate` over a sequence of (average-EAR, time)
frames, keeping only the evolving state. -/
def runBlinkFrames {α : Type} [LinearOrderedField α] (frames : List (α × ℤ))
    (st : BlinkState α) : BlinkState α :=
  frames.foldl (fun s f => (updateBlinkRate f.1 f.2 s).2) st

/-- Number of down-crossings of the `0.25` threshold in an EAR sequence,
given the previous EAR value: stated from the claim's words ("exactly
once per transition from strictly above the threshold to
at-or-below it"), for comparison with `updateBlinkRate`. -/
def specDownCrossings {α : Type} [LinearOrderedField α] : α → List α → ℕ
  | _, [] => 0
  | prev, e :: es => (if prev > 1/4 ∧ e ≤ 1/4 then 1 else 0) + specDownCrossings e es

/-- Landmark layout used as a concrete counterexample input: index 133
is `(1,0)`, 362 is `(2,0)`, 263 is `(3,0)`, 1 and 6 are `(0,-1)`, all
other indices `(0,0)`.  This gives both eyes an aspect ratio of `0`. -/
def demoPoint (i : ℕ) : Pt :=
  if i = 133 then ⟨1, 0⟩
  else if i = 362 then ⟨2, 0⟩
  else if i = 263 then ⟨3, 0⟩
  else if i = 1 then ⟨0, -1⟩
  else if i = 6 then ⟨0, -1⟩
  else ⟨0, 0⟩

/-- A 388-landmark frame (shorter than the 400 needed for gaze jitter,
long enough for every eye/mouth/nose index). -/
def demoLandmarks : List Pt := (List.range 388).map demoPoint

/-! ## Emotion classification: `goemotions.ts` and
`analyticsController.ts` (`classifyEmotions`) -/

/-- An emotion label with its score, as produced by the model. -/
structure Emotion where
  label : String
  score : ℚ
deriving DecidableEq

/-- The sort order used by `classifyGoEmotions`: the JS comparator
`(a, b) => b.score - a.score` puts `a` before `b` iff
`b.score ≤ a.score` (descending scores). -/
def byScoreDesc (a b : Emotion) : Prop := b.score ≤ a.score

instance : DecidableRel byScoreDesc := fun a b =>
  inferInstanceAs (Decidable (b.score ≤ a.score))

instance : IsTotal Emotion byScoreDesc :=
  ⟨fun a b => le_total b.score a.score⟩

instance : IsTrans Emotion byScoreDesc :=
  ⟨fun _ _ _ hab hbc => le_trans hbc hab⟩

/-- The second loop of `classifyGoEmotions`: walk the top-K candidates
and append each one whose label is not yet in `picked`. -/
def padLoop (picked : List Emotion) : List Emotion → List Emotion
  | [] => picked
  | c :: cs =>
    if (picked.find? (fun p => p.label = c.label)).isSome then padLoop picked cs
    else padLoop (picked ++ [c]) cs

/-- The pure core of `classifyGoEmotions(text, threshold, topK)` acting
on the model's raw score list: sort descending by score (JS `sort` is a
stable comparison sort, embedded as insertion sort), keep every emotion
with `score >= threshold`, then pad from the top `topK` entries skipping
labels already picked.  The blank-text guard and the pipeline call are
effects handled in `classifyEmotions` below. -/
def classifyGoEmotions (raw : List Emotion) (threshold : ℚ) (topK : ℕ) : List Emotion :=
  let sorted := List.insertionSort byScoreDesc raw
  let picked := sorted.filter (fun e => threshold ≤ e.score)
  padLoop picked (sorted.take topK)

/-- JS `String.prototype.trim`: strip leading and trailing whitespace. -/
def jsTrim (s : String) : String :=
  ⟨((s.data.dropWhile Char.isWhitespace).reverse.dropWhile Char.isWhitespace).reverse⟩

/-- `classifyEmotions(text)` from the controller: returns `[]` at once
for blank text (JS `!text?.trim()`); otherwise invokes the lazily
initialized GoEmotions pipeline with threshold `0.30` and top-K `3`,
re-throwing any pipeline error.  The pipeline (initialization plus
inference) is modelled as an `Except` oracle; the returned `Bool`
records whether the pipeline was invoked at all. -/
def classifyEmotions (text : String) (pipe : Except String (List Emotion)) :
    Except String (List Emotion) × Bool :=
  if jsTrim text = "" then (Except.ok [], false)
  else
    match pipe with
    | Except.ok raw => (Except.ok (classifyGoEmotions raw (3/10) 3), true)
    | Except.error e => (Except.error e, true)

/-- A concrete score list with distinct labels: one emotion above the
`0.30` threshold, three below it. -/
def emotionScores0 : List Emotion :=
  [⟨"joy", 9/10⟩, ⟨"fear", 2/10⟩, ⟨"anger", 1/10⟩, ⟨"grief", 1/20⟩]

/-! ## Metrics aggregator: `analyticsController.ts` -/

/-- `CONFIG.WPM_WINDOW_SEC`. -/
def WPM_WINDOW_SEC : ℕ := 30

/-- `CONFIG.RMS_NOISE_FLOOR` (= 0.03). -/
def RMS_NOISE_FLOOR : ℚ := 3/100

/-- `TONE_HISTORY_SIZE` (30 samples = 3 seconds at 10 Hz). -/
def TONE_HISTORY_SIZE : ℕ := 30

/-- `CONFIG.MAX_METRICS_BUFFER`. -/
def MAX_METRICS_BUFFER : ℕ := 18000

/-- JS `Math.round`: round half up, `⌊x + 1/2⌋`. -/
def jsRound (x : ℚ) : ℤ := ⌊x + 1/2⌋

/-- One entry of the controller's `wordTimestamps` array. -/
structure WordStamp where
  word : String
  t : ℤ
deriving DecidableEq

/-- `calculateWPM()`: drop words older than the 30-second window, then
`Math.round((count / WPM_WINDOW_SEC) * 60)`; returns the filtered array
(the source assigns it back to `wordTimestamps`) plus the WPM value. -/
def calculateWPM (now : ℤ) (wordTimestamps : List WordStamp) : List WordStamp × ℤ :=
  let windowMs : ℤ := (WPM_WINDOW_SEC : ℤ) * 1000
  let cutoff := now - windowMs
  let ws := wordTimestamps.filter (fun w => cutoff ≤ w.t)
  (ws, if ws.length = 0 then 0 else jsRound (((ws.length : ℚ) / (WPM_WINDOW_SEC : ℚ)) * 60))

/-- `calculatePauseRatio(rmsHistory)`: fraction of history samples
strictly below `2 * RMS_NOISE_FLOOR`. -/
def calculatePauseRatio (rmsHistory : List ℚ) : ℚ :=
  if rmsHistory.length = 0 then 0
  else
    let threshold := RMS_NOISE_FLOOR * 2
    let pauses := (rmsHistory.filter (fun rms => rms < threshold)).length
    (pauses : ℚ) / (rmsHistory.length : ℚ)

/-- `calculateFillersPerMin()`: cumulative filler count over elapsed
minutes (0 when no time has elapsed). -/
def calculateFillersPerMin (now startTime : ℤ) (fillerCount : ℕ) : ℚ :=
  let elapsedMin : ℚ := ((now - startTime : ℤ) : ℚ) / 60000
  if elapsedMin = 0 then 0 else (fillerCount : ℚ) / elapsedMin

/-- The single-slot audio cache `latestAudioData : Partial<AudioAnalysisMessage>`:
each field is absent until the worklet posts a result. -/
structure AudioCache where
  rms : Option ℚ
  pitch : Option ℚ

/-- The single-slot face cache `latestFaceData : Partial<FaceAnalysisMessage>`. -/
structure FaceCache where
  yaw : Option ℚ
  pitch : Option ℚ
  blinkPerMin : Option ℚ
  smile : Option ℚ
  gazeJitter : Option ℚ

/-- `MetricsEvent` (from `types.d.ts`); optional fields are `Option`.
`transcriptPartial`/`transcriptFinal` stand for the source fields
`transcript_partial`/`transcript_final`. -/
structure MetricsEvent where
  t : ℤ
  wpm : Option ℤ
  pitch_hz : Option ℚ
  rms : Option ℚ
  pause_ratio : Option ℚ
  fillers_per_min : ℚ
  head : Option (ℚ × ℚ)
  gaze_jitter : Option ℚ
  smile : Option ℚ
  blink_per_min : Option ℚ
  transcriptPartial : String
  transcriptFinal : String
  emotions : Option (List Emotion)

/-- The values read by one `publishMetrics` tick that are owned by the
clock and the producer callbacks (not mutated by the tick itself). -/
structure TickCtx where
  now : ℤ
  startTime : ℤ
  asrAvailable : Bool
  latestAudioData : AudioCache
  latestFaceData : FaceCache
  transcriptInterim : String
  transcriptFinal : String
  fillerCount : ℕ
  lastEmotions : List Emotion

/-- The controller state mutated by `publishMetrics`. -/
structure AggState where
  wordTimestamps : List WordStamp
  pitchHistory : List ℚ
  rmsHistory : List ℚ
  wpmHistory : List ℚ
  allMetrics : List MetricsEvent

/-- Controller state right after the `start()` reset. -/
def aggState0 : AggState := ⟨[], [], [], [], []⟩

/-- The push-then-trim fragment used for the three tone histories and
for `allMetrics`: `arr.push(v); if (arr.length > cap) arr.shift()`. -/
def pushTrim {β : Type} (cap : ℕ) (l : List β) (v : β) : List β :=
  let l2 := l ++ [v]
  if l2.length > cap then l2.tail else l2

/-- `publishMetrics()`: one aggregator tick.  Reads the latest cached
producer values, updates the tone histories and `wordTimestamps`,
assembles the `MetricsEvent` exactly as the source does (JS truthiness:
`latestAudioData.pitch && latestAudioData.pitch > 0` is `0 < p`;
`latestFaceData.pitch || 0` is `getD 0`), appends it to the bounded
`allMetrics` buffer and returns the published event with the new state. -/
def publishMetrics (c : TickCtx) (s : AggState) : MetricsEvent × AggState :=
  let t := c.now - c.startTime
  let wpmRes :=
    if c.asrAvailable then calculateWPM c.now s.wordTimestamps
    else (s.wordTimestamps, 0)
  let currentWpm := wpmRes.2
  let currentPitch := c.latestAudioData.pitch.getD 0
  let currentRms := c.latestAudioData.rms.getD 0
  let pitchHistory := pushTrim TONE_HISTORY_SIZE s.pitchHistory currentPitch
  let rmsHistory := pushTrim TONE_HISTORY_SIZE s.rmsHistory currentRms
  let wpmHistory := pushTrim TONE_HISTORY_SIZE s.wpmHistory (currentWpm : ℚ)
  let event : MetricsEvent :=
    ⟨t,
      if c.asrAvailable then some currentWpm else none,
      (match c.latestAudioData.pitch with
        | some p => if 0 < p then some p else none
        | none => none),
      c.latestAudioData.rms,
      if rmsHistory.length > 0 then some (calculatePauseRatio rmsHistory) else none,
      calculateFillersPerMin c.now c.startTime c.fillerCount,
      (match c.latestFaceData.yaw with
        | some y => some (y, c.latestFaceData.pitch.getD 0)
        | none => none),
      c.latestFaceData.gazeJitter,
      c.latestFaceData.smile,
      c.latestFaceData.blinkPerMin,
      c.transcriptInterim,
      c.transcriptFinal,
      if c.lastEmotions.length > 0 then some c.lastEmotions else none⟩
  let allMetrics := pushTrim MAX_METRICS_BUFFER s.allMetrics event
  (event, ⟨wpmRes.1, pitchHistory, rmsHistory, wpmHistory, allMetrics⟩)

/-- A sequence of aggregator ticks (state only). -/
def runTicks (ctxs : List TickCtx) (s : AggState) : AggState :=
  ctxs.foldl (fun s c => (publishMetrics c s).2) s

/-- Stated from the claim's words: the fraction of the loudness samples
`(timestamp, rms)` lying within a trailing 10-second window of `now`
that are below the `2 × noise-floor` threshold. -/
def specPauseRatio (now : ℤ) (samples : List (ℤ × ℚ)) : ℚ :=
  let win := samples.filter (fun p => now - 10000 ≤ p.1)
  if win.length = 0 then 0
  else ((win.filter (fun p => p.2 < RMS_NOISE_FLOOR * 2)).length : ℚ) / (win.length : ℚ)

/-- A face cache with no values yet. -/
def faceCacheNone : FaceCache := ⟨none, none, none, none, none⟩

/-- Tick context for the pause-ratio counterexample: ticks at 10 Hz
(`now = 100·(i+1)`), the first tick's cached RMS below the `0.06`
threshold, all later ones above it. -/
def pauseCexCtx (i : ℕ) : TickCtx :=
  ⟨100 * ((i : ℤ) + 1), 0, false, ⟨some (if i = 0 then 0 else 1/2), none⟩,
    faceCacheNone, "", "", 0, []⟩

/-- The timestamped RMS samples of the 31 counterexample ticks. -/
def pauseCexSamples : List (ℤ × ℚ) :=
  (List.range 31).map (fun i : ℕ => ((100 * ((i : ℤ) + 1), if i = 0 then (0 : ℚ) else 1/2)))

/-! ## `stop()` teardown: `analyticsController.ts` -/

/-- The individual teardown steps of `stop()`, in source order. -/
inductive StopStep
  | clearTimer
  | asrStop
  | cancelFaceLoop
  | terminateWorker
  | disconnectWorklet
  | closeAudioContext
  | stopRecorder
  | stopTracks
  | detachVideo
deriving DecidableEq

/-- The controller resources `stop()` inspects and releases.
`recorderActive` models `mediaRecorder && mediaRecorder.state !== 'inactive'`;
`videoAttached` models `videoElement.srcObject` being set. -/
structure ControllerState where
  isRunning : Bool
  hasStream : Bool
  hasMetricsInterval : Bool
  hasFaceLoop : Bool
  hasFaceWorker : Bool
  hasWorkletNode : Bool
  hasAudioContext : Bool
  recorderActive : Bool
  hasVideoElement : Bool
  videoAttached : Bool
deriving DecidableEq

/-- Which underlying browser/API calls raise when invoked during
teardown.  `recognitionStopThrows` is the one call whose error is caught
*inside* `ASRService.stop` (logged there, never propagated); the
controller's own `stop()` wraps none of the other calls. -/
structure StopWorld where
  recognitionStopThrows : Bool
  cancelFrameThrows : Bool
  terminateThrows : Bool
  disconnectThrows : Bool
  closeThrows : Bool
  recorderStopThrows : Bool
  trackStopThrows : Bool
  detachThrows : Bool
deriving DecidableEq

/-- A world in which no teardown call raises. -/
def noFailWorld : StopWorld := ⟨false, false, false, false, false, false, false, false⟩

/-- Result of a `stop()` call: the promise outcome (an error is the
step whose underlying call threw), the steps that actually ran, and the
final resource state. -/
structure StopOutcome where
  result : Except StopStep Unit
  executed : List StopStep
  finalState : ControllerState

/-- `stop()`: early-returns when not running and no stream is held;
otherwise performs the teardown steps in source order.  The body of the
source `stop()` contains no try/catch, so an exception from any step
rejects the returned promise and skips the remaining steps; only
`asrService.stop()` is internally guarded (inside `ASRService`). -/
def stop (w : StopWorld) (s : ControllerState) : StopOutcome :=
  if ¬s.isRunning ∧ ¬s.hasStream then ⟨Except.ok (), [], s⟩
  else
    let s := { s with isRunning := false }
    -- clearInterval(metricsIntervalId); metricsIntervalId = null
    let ex := if s.hasMetricsInterval then [StopStep.clearTimer] else []
    let s := { s with hasMetricsInterval := false }
    -- asrService.stop(): recognition.stop() errors are caught and logged inside the service
    let ex := ex ++ [StopStep.asrStop]
    -- cancelAnimationFrame(faceLoopId); faceLoopId = null
    if s.hasFaceLoop ∧ w.cancelFrameThrows then ⟨Except.error StopStep.cancelFaceLoop, ex, s⟩ else
    let ex := if s.hasFaceLoop then ex ++ [StopStep.cancelFaceLoop] else ex
    let s := { s with hasFaceLoop := false }
    -- faceWorker.terminate(); faceWorker = null
    if s.hasFaceWorker ∧ w.terminateThrows then ⟨Except.error StopStep.terminateWorker, ex, s⟩ else
    let ex := if s.hasFaceWorker then ex ++ [StopStep.terminateWorker] else ex
    let s := { s with hasFaceWorker := false }
    -- audioWorkletNode.disconnect(); audioWorkletNode = null
    if s.hasWorkletNode ∧ w.disconnectThrows then ⟨Except.error StopStep.disconnectWorklet, ex, s⟩ else
    let ex := if s.hasWorkletNode then ex ++ [StopStep.disconnectWorklet] else ex
    let s := { s with hasWorkletNode := false }
    -- await audioContext.close(); audioContext = null
    if s.hasAudioContext ∧ w.closeThrows then ⟨Except.error StopStep.closeAudioContext, ex, s⟩ else
    let ex := if s.hasAudioContext then ex ++ [StopStep.closeAudioContext] else ex
    let s := { s with hasAudioContext := false }
    -- mediaRecorder.stop() when state !== 'inactive'
    if s.recorderActive ∧ w.recorderStopThrows then ⟨Except.error StopStep.stopRecorder, ex, s⟩ else
    let ex := if s.recorderActive then ex ++ [StopStep.stopRecorder] else ex
    let s := { s with recorderActive := false }
    -- stream.getTracks().forEach(track => track.stop()); stream = null
    if s.hasStream ∧ w.trackStopThrows then ⟨Except.error StopStep.stopTracks, ex, s⟩ else
    let ex := if s.hasStream then ex ++ [StopStep.stopTracks] else ex
    let s := { s with hasStream := false }
    -- videoElement.srcObject = null
    if s.hasVideoElement ∧ w.detachThrows then ⟨Except.error StopStep.detachVideo, ex, s⟩ else
    let ex := if s.hasVideoElement then ex ++ [StopStep.detachVideo] else ex
    let s := { s with videoAttached := false }
    ⟨Except.ok (), ex, s⟩

/-- A fully wired running controller (every resource held). -/
def runningState : ControllerState :=
  ⟨true, true, true, true, true, true, true, true, true, true⟩

/-- A world in which `audioContext.close()` rejects and every other
teardown call succeeds. -/
def closeFailWorld : StopWorld := ⟨false, false, false, false, true, false, false, false⟩

/-- A quiet tick context: producers have published nothing. -/
def tickCtx0 : TickCtx := ⟨0, 0, false, ⟨none, none⟩, faceCacheNone, "", "", 0, []⟩

/-- A tick context with ASR available and two timestamped words, one of
them inside the 30-second window of `now = 100000`. -/
def asrCtx : TickCtx :=
  ⟨100000, 0, true, ⟨none, none⟩, faceCacheNone, "", "", 0, []⟩

/-- Aggregator state holding one in-window and one stale word. -/
def asrState : AggState := ⟨[⟨"hello", 80000⟩, ⟨"stale", 10⟩], [], [], [], []⟩

/-- A tick context whose audio cache holds a silent, no-pitch frame
(`rms = 0`, `pitch = 0`). -/
def zeroAudioCtx : TickCtx :=
  ⟨0, 0, false, ⟨some 0, some 0⟩, faceCacheNone, "", "", 0, []⟩

/-- A tick context whose audio cache holds a voiced frame. -/
def posAudioCtx : TickCtx :=
  ⟨0, 0, false, ⟨some (1/10), some 120⟩, faceCacheNone, "", "", 0, []⟩

/-- An empty published event (used to fill a buffer at its cap). -/
def metricsEvent0 : MetricsEvent :=
  ⟨0, none, none, none, none, 0, none, none, none, none, "", "", none⟩

/-- Aggregator state whose history buffer is exactly at the cap. -/
def fullBufferState : AggState :=
  ⟨[], [], [], [], List.replicate MAX_METRICS_BUFFER metricsEvent0⟩

/-! ## Theorems -/

/-- Indexing into an all-zero list always yields `0`. -/
theorem getD_replicate_zero (n j : ℕ) : (List.replicate n (0:ℚ)).getD j 0 = 0 := by
  rw [List.getD_eq_getElem?_getD, List.getElem?_replicate]
  split <;> rfl

/-- All-zero sample list: every correlation sum is `0`. -/
theorem corrAt_replicate_zero (n : ℕ) (period : ℕ) :
    corrAt (List.replicate n 0) period = 0 := by
  unfold corrAt
  apply List.sum_eq_zero
  intro x hx
  simp only [List.mem_map] at hx
  obtain ⟨i, _, rfl⟩ := hx
  rw [getD_replicate_zero, zero_mul]

/-- The search over an all-zero frame never updates `(0, 0)`. -/
theorem pitchSearch_replicate_zero (n : ℕ) (periods : List ℕ) :
    pitchSearch (List.replicate n 0) periods = (0, 0) := by
  unfold pitchSearch
  induction periods with
  | nil => rfl
  | cons p ps ih =>
    simpa [List.foldl_cons, corrAt_replicate_zero] using ih

/-- Claim C5: for an audio frame whose samples are all zero, the audio
feature extractor reports loudness (RMS) equal to `0` and pitch equal to
`0` ("no clear pitch"). -/
theorem silent_frame_zero (n : ℕ) (h : 0 < n) :
    computeRMS (List.replicate n 0) = 0 ∧
      computePitch (List.replicate n 0) 48000 = 0 := by
  constructor
  · unfold computeRMS
    have hz : ((List.replicate n (0:ℚ)).map (fun s => s * s)).sum = 0 := by
      simp
    rw [hz]
    simp
  · simp [computePitch, pitchSearch_replicate_zero]

/-- Witness for C5 at the worklet's actual frame length
(`floor(48000 * 0.05) = 2400` samples). -/
theorem silent_frame_zero_witness :
    computeRMS (List.replicate 2400 0) = 0 ∧
      computePitch (List.replicate 2400 0) 48000 = 0 :=
  silent_frame_zero 2400 (by decide)

/-- One `updateBlinkRate` call: the blink count grows exactly by one on
a down-crossing of the threshold, and `lastEyeAspectRatio` becomes the
current EAR. -/
theorem updateBlinkRate_props {α : Type} [LinearOrderedField α] (e : α) (t : ℤ)
    (s : BlinkState α) :
    ((updateBlinkRate e t s).2).blinkCount =
        s.blinkCount + (if s.lastEyeAspectRatio > 1/4 ∧ e ≤ 1/4 then 1 else 0) ∧
      ((updateBlinkRate e t s).2).lastEyeAspectRatio = e := by
  unfold updateBlinkRate
  split <;> simp

/-- Claim C7: over any sequence of per-frame average EAR values the
blink count increments exactly once per transition from strictly above
the `0.25` threshold to at-or-below it (in particular, consecutive
frames staying at or below the threshold do not increment it). -/
theorem blink_downcrossing (frames : List (ℚ × ℤ)) (st : BlinkState ℚ) :
    (runBlinkFrames frames st).blinkCount =
      st.blinkCount + specDownCrossings st.lastEyeAspectRatio (frames.map Prod.fst) := by
  induction frames generalizing st with
  | nil => simp [runBlinkFrames, specDownCrossings]
  | cons f fs ih =>
    have h := updateBlinkRate_props f.1 f.2 st
    have hrw : runBlinkFrames (f :: fs) st = runBlinkFrames fs ((updateBlinkRate f.1 f.2 st).2) := rfl
    rw [hrw, ih, h.1, h.2]
    simp [specDownCrossings, Nat.add_assoc]

/-- Claim C2 (amended): on a cycle with no face detected the worker
reports zero for every field — gaze jitter, smile, head pose *and*
blinks-per-minute — and leaves the module state (in particular the blink
count and timestamps) unchanged. -/
theorem analyzeFrame_no_face (t : ℤ) (st : FaceState) :
    analyzeFrame none t st = (⟨0, 0, 0, 0, 0⟩, st) := rfl

/-- Landmark lookup in the concrete counterexample frame. -/
theorem demoLandmarks_getElem (i : ℕ) (h : i < 388) :
    demoLandmarks[i]? = some (demoPoint i) := by
  simp [demoLandmarks, List.getElem?_map, List.getElem?_range, h]

/-- The left-eye aspect ratio of the counterexample frame is `0`. -/
theorem demo_left_EAR :
    calculateEAR ((LEFT_EYE_INDICES.map (fun i => demoLandmarks[i]?)).reduceOption) = 0 := by
  have h : (LEFT_EYE_INDICES.map (fun i => demoLandmarks[i]?)).reduceOption =
      [⟨0, 0⟩, ⟨0, 0⟩, ⟨0, 0⟩, ⟨1, 0⟩, ⟨0, 0⟩, ⟨0, 0⟩] := by
    simp [LEFT_EYE_INDICES, demoLandmarks_getElem, demoPoint, List.reduceOption]
  rw [h]
  unfold calculateEAR
  rw [if_neg (by norm_num)]
  norm_num [List.getD, distance]

/-- The right-eye aspect ratio of the counterexample frame is `0`. -/
theorem demo_right_EAR :
    calculateEAR ((RIGHT_EYE_INDICES.map (fun i => demoLandmarks[i]?)).reduceOption) = 0 := by
  have h : (RIGHT_EYE_INDICES.map (fun i => demoLandmarks[i]?)).reduceOption =
      [⟨2, 0⟩, ⟨0, 0⟩, ⟨0, 0⟩, ⟨3, 0⟩, ⟨0, 0⟩, ⟨0, 0⟩] := by
    simp [RIGHT_EYE_INDICES, demoLandmarks_getElem, demoPoint, List.reduceOption]
  rw [h]
  unfold calculateEAR
  rw [if_neg (by norm_num)]
  norm_num [List.getD, distance]

/-- Evaluating `updateBlinkRate` on the blink transition `1 → 0` at
time 1000 from the initial worker state. -/
theorem demo_updateBlink :
    updateBlinkRate (0 : ℝ) 1000 ⟨1, 0, []⟩ = (1, ⟨0, 1, [1000]⟩) := by
  unfold updateBlinkRate
  split_ifs with h
  · norm_num [List.dropWhile]
  · exact absurd ⟨by norm_num, by norm_num⟩ h

/-- Counterexample to claim C2: a frame with a blink (reported
blinks-per-minute `1`) followed by a no-face cycle, which reports
blinks-per-minute `0` rather than the previous value `1`. -/
theorem face_blink_report_cex :
    (analyzeFrame (some demoLandmarks) 1000 faceState0).1.blinkPerMin = 1 ∧
      (analyzeFrame none 1100 (analyzeFrame (some demoLandmarks) 1000 faceState0).2).1.blinkPerMin = 0 ∧
      (1 : ℕ) ≠ 0 := by
  refine ⟨?_, rfl, by norm_num⟩
  show (analyzeFrame (some demoLandmarks) 1000 faceState0).1.blinkPerMin = 1
  simp only [analyzeFrame]
  rw [demo_left_EAR, demo_right_EAR]
  have hz : ((0 : ℝ) + 0) / 2 = 0 := by norm_num
  rw [hz]
  have hb : faceState0.blink = ⟨1, 0, []⟩ := rfl
  rw [hb, demo_updateBlink]

/-- Counterexample to claim C3: with every resource held, if the
`audioContext.close()` call rejects, `stop()` re-throws that error to
the caller, the recorder/track/video teardown steps never run, and the
media stream is still held afterwards. -/
theorem stop_rethrows_cex :
    (stop closeFailWorld runningState).result = Except.error StopStep.closeAudioContext ∧
      (stop closeFailWorld runningState).executed =
        [StopStep.clearTimer, StopStep.asrStop, StopStep.cancelFaceLoop,
          StopStep.terminateWorker, StopStep.disconnectWorklet] ∧
      (stop closeFailWorld runningState).finalState.hasStream = true ∧
      (stop closeFailWorld runningState).finalState.videoAttached = true := by
  refine ⟨rfl, rfl, rfl, rfl⟩

/-- Claim C3 (amended): the body of `stop()` contains no per-step error
handling (only `asrService.stop()` catches internally), so a teardown
error propagates and aborts the remaining steps; when no underlying
teardown call raises, `stop()` on a running controller returns normally
with the timer, loops and device handles all released. -/
theorem stop_no_throw (s : ControllerState) (h : s.isRunning = true) :
    (stop noFailWorld s).result = Except.ok () ∧
      (stop noFailWorld s).finalState.isRunning = false ∧
      (stop noFailWorld s).finalState.hasMetricsInterval = false ∧
      (stop noFailWorld s).finalState.hasFaceLoop = false ∧
      (stop noFailWorld s).finalState.hasFaceWorker = false ∧
      (stop noFailWorld s).finalState.hasWorkletNode = false ∧
      (stop noFailWorld s).finalState.hasAudioContext = false ∧
      (stop noFailWorld s).finalState.recorderActive = false ∧
      (stop noFailWorld s).finalState.hasStream = false ∧
      (stop noFailWorld s).finalState.videoAttached = false := by
  unfold stop
  rw [if_neg (by simp [h])]
  simp [noFailWorld]

/-- Witness for the amended C3 on the fully wired running controller. -/
theorem stop_no_throw_witness :
    (stop noFailWorld runningState).result = Except.ok () ∧
      (stop noFailWorld runningState).finalState.isRunning = false ∧
      (stop noFailWorld runningState).finalState.hasMetricsInterval = false ∧
      (stop noFailWorld runningState).finalState.hasFaceLoop = false ∧
      (stop noFailWorld runningState).finalState.hasFaceWorker = false ∧
      (stop noFailWorld runningState).finalState.hasWorkletNode = false ∧
      (stop noFailWorld runningState).finalState.hasAudioContext = false ∧
      (stop noFailWorld runningState).finalState.recorderActive = false ∧
      (stop noFailWorld runningState).finalState.hasStream = false ∧
      (stop noFailWorld runningState).finalState.videoAttached = false :=
  stop_no_throw runningState rfl

/-- Claim C10: for blank input text (JS `!text?.trim()`), emotion
classification returns an empty result immediately, without initializing
or invoking the classification pipeline and without error, whatever the
pipeline would have done. -/
theorem classifyEmotions_blank (text : String) (pipe : Except String (List Emotion))
    (h : jsTrim text = "") :
    classifyEmotions text pipe = (Except.ok [], false) := by
  unfold classifyEmotions
  rw [if_pos h]

/-- Witness for C10: whitespace-only text with a failing pipeline. -/
theorem classifyEmotions_blank_witness :
    classifyEmotions "  " (Except.error "model failed to load") = (Except.ok [], false) :=
  classifyEmotions_blank "  " (Except.error "model failed to load") (by decide)

/-- `Math.round` of an even natural number (as a rational) is itself. -/
theorem jsRound_two_mul (n : ℕ) : jsRound (((n : ℚ) / 30) * 60) = 2 * n := by
  have h : ((n : ℚ) / 30) * 60 = ((2 * n : ℤ) : ℚ) := by
    push_cast
    ring
  rw [jsRound, h, add_comm, Int.floor_add_int]
  norm_num

/-- `calculateWPM` equals twice the number of words timestamped within
the trailing 30-second window. -/
theorem calculateWPM_eq (now : ℤ) (ws : List WordStamp) :
    (calculateWPM now ws).2 = 2 * ((ws.countP (fun w => now - 30000 ≤ w.t)) : ℤ) := by
  simp only [calculateWPM]
  rw [show now - (WPM_WINDOW_SEC : ℤ) * 1000 = now - 30000 by norm_num [WPM_WINDOW_SEC]]
  rw [List.countP_eq_length_filter]
  by_cases h0 : (ws.filter (fun w => decide (now - 30000 ≤ w.t))).length = 0
  · rw [if_pos h0, h0]
    norm_num
  · rw [if_neg h0]
    rw [show ((WPM_WINDOW_SEC : ℕ) : ℚ) = 30 by norm_num [WPM_WINDOW_SEC]]
    rw [jsRound_two_mul]

/-- Claim C8: the computed speaking rate is the count of finalized
words whose timestamp lies within the trailing 30-second window,
multiplied by 60/30 — i.e. exactly twice the in-window word count — and
that is the value published at the tick when ASR is available. -/
theorem calculateWPM_window (now : ℤ) (ws : List WordStamp) (c : TickCtx) (s : AggState)
    (h : c.asrAvailable = true) :
    (calculateWPM now ws).2 = 2 * ((ws.countP (fun w => now - 30000 ≤ w.t)) : ℤ) ∧
      (publishMetrics c s).1.wpm =
        some (2 * ((s.wordTimestamps.countP (fun w => c.now - 30000 ≤ w.t)) : ℤ)) := by
  refine ⟨calculateWPM_eq now ws, ?_⟩
  simp only [publishMetrics, h, if_true]
  rw [calculateWPM_eq]

/-- Witness for C8: one in-window word and one stale word at
`now = 100000` give a published WPM of 2. -/
theorem calculateWPM_window_witness :
    (calculateWPM 100000 asrState.wordTimestamps).2 =
        2 * ((asrState.wordTimestamps.countP (fun w => 100000 - 30000 ≤ w.t)) : ℤ) ∧
      (publishMetrics asrCtx asrState).1.wpm =
        some (2 * ((asrState.wordTimestamps.countP (fun w => asrCtx.now - 30000 ≤ w.t)) : ℤ)) :=
  calculateWPM_window 100000 asrState.wordTimestamps asrCtx asrState rfl

/-- Counterexample to claim C4: the audio modality has produced a
result (a silent, no-pitch frame is cached), yet the published event's
`pitch_hz` field is absent rather than present with value `0`; only the
`rms` field uses the zero sentinel. -/
theorem pitch_sentinel_cex :
    (publishMetrics zeroAudioCtx aggState0).1.pitch_hz = none ∧
      (publishMetrics zeroAudioCtx aggState0).1.pitch_hz ≠ some 0 ∧
      (publishMetrics zeroAudioCtx aggState0).1.rms = some 0 := by
  have h1 : (publishMetrics zeroAudioCtx aggState0).1.pitch_hz = none := rfl
  exact ⟨h1, by rw [h1]; simp, rfl⟩

/-- Claim C4 (amended): the RMS field keeps zero as a valid "no signal"
sentinel — once the worklet has produced a result, a silent frame is
published as a present `rms = 0` — but the pitch field does not: a
cached pitch of `0` is published as an *absent* `pitch_hz`, which is
present exactly when the cached pitch is positive. -/
theorem audio_sentinel_amended (c : TickCtx) (s : AggState) :
    (∀ r : ℚ, c.latestAudioData.rms = some r → (publishMetrics c s).1.rms = some r) ∧
      (c.latestAudioData.pitch = some 0 → (publishMetrics c s).1.pitch_hz = none) ∧
      (∀ p : ℚ, c.latestAudioData.pitch = some p → 0 < p →
        (publishMetrics c s).1.pitch_hz = some p) ∧
      (c.latestAudioData.pitch = none → (publishMetrics c s).1.pitch_hz = none) := by
  refine ⟨?_, ?_, ?_, ?_⟩
  · intro r hr
    simp [publishMetrics, hr]
  · intro hp
    simp [publishMetrics, hp]
  · intro p hp hpos
    simp [publishMetrics, hp, hpos]
  · intro hp
    simp [publishMetrics, hp]

/-- Witness for the amended C4 on a voiced frame
(`rms = 0.1`, `pitch = 120`). -/
theorem audio_sentinel_witness :
    (publishMetrics posAudioCtx aggState0).1.rms = some (1/10) ∧
      (publishMetrics posAudioCtx aggState0).1.pitch_hz = some 120 :=
  ⟨(audio_sentinel_amended posAudioCtx aggState0).1 (1/10) rfl,
    (audio_sentinel_amended posAudioCtx aggState0).2.2.1 120 rfl (by norm_num)⟩

/-- Push-then-trim keeps a buffer at or below its cap. -/
theorem pushTrim_length_le {β : Type} (cap : ℕ) (l : List β) (v : β)
    (h : l.length ≤ cap) : (pushTrim cap l v).length ≤ cap := by
  simp only [pushTrim]
  split
  · simp
    omega
  · simp_all

/-- Folding push-then-trim from a buffer within its cap keeps exactly
the trailing `cap` values. -/
theorem foldl_pushTrim {β : Type} (cap : ℕ) (vs : List β) (h0 : List β)
    (h : h0.length ≤ cap) :
    vs.foldl (pushTrim cap) h0 = (h0 ++ vs).drop ((h0 ++ vs).length - cap) := by
  induction vs generalizing h0 with
  | nil =>
    rw [List.foldl_nil, List.append_nil, Nat.sub_eq_zero_of_le h, List.drop_zero]
  | cons v vs ih =>
    rw [List.foldl_cons]
    by_cases hlt : h0.length < cap
    · have hp : pushTrim cap h0 v = h0 ++ [v] := by
        unfold pushTrim
        rw [if_neg (by simp; omega)]
      rw [hp, ih (h0 ++ [v]) (by simp; omega)]
      simp
    · have hc : h0.length = cap := le_antisymm h (not_lt.mp hlt)
      have hp : pushTrim cap h0 v = (h0 ++ [v]).tail := by
        unfold pushTrim
        rw [if_pos (by simp; omega)]
      rw [hp, ih ((h0 ++ [v]).tail) (by simp [hc])]
      have h1 : (h0 ++ [v]).tail ++ vs = ((h0 ++ [v]) ++ vs).drop 1 := by
        rw [List.drop_append_of_le_length (by simp)]
        rw [List.drop_one]
      rw [h1, List.drop_drop]
      have h2 : (h0 ++ [v]) ++ vs = h0 ++ v :: vs := by simp
      rw [h2]
      congr 1
      simp [hc]
      omega

/-- One tick updates `rmsHistory` by push-then-trim with the latest
cached RMS (`latestAudioData.rms || 0`). -/
theorem publishMetrics_rmsHistory (c : TickCtx) (s : AggState) :
    ((publishMetrics c s).2).rmsHistory =
      pushTrim TONE_HISTORY_SIZE s.rmsHistory (c.latestAudioData.rms.getD 0) := rfl

/-- One tick updates `allMetrics` by push-then-trim with the published
event. -/
theorem publishMetrics_allMetrics (c : TickCtx) (s : AggState) :
    ((publishMetrics c s).2).allMetrics =
      pushTrim MAX_METRICS_BUFFER s.allMetrics (publishMetrics c s).1 := rfl

/-- After any tick sequence, `rmsHistory` is the push-then-trim fold of
the per-tick cached RMS values. -/
theorem runTicks_rmsHistory (ctxs : List TickCtx) (s : AggState) :
    (runTicks ctxs s).rmsHistory =
      (ctxs.map (fun c => c.latestAudioData.rms.getD 0)).foldl
        (pushTrim TONE_HISTORY_SIZE) s.rmsHistory := by
  induction ctxs generalizing s with
  | nil => rfl
  | cons c cs ih =>
    rw [show runTicks (c :: cs) s = runTicks cs ((publishMetrics c s).2) from rfl]
    rw [ih, publishMetrics_rmsHistory, List.map_cons, List.foldl_cons]

/-- At any tick of a session started from the reset state, the
published pause ratio is `calculatePauseRatio` of the trailing
`TONE_HISTORY_SIZE` cached RMS values. -/
theorem publish_pause_window (ctxs : List TickCtx) (c : TickCtx) :
    (publishMetrics c (runTicks ctxs aggState0)).1.pause_ratio =
      some (calculatePauseRatio
        (((ctxs ++ [c]).map (fun x => x.latestAudioData.rms.getD 0)).drop
          (((ctxs ++ [c]).map (fun x => x.latestAudioData.rms.getD 0)).length
            - TONE_HISTORY_SIZE))) := by
  have hrh : pushTrim TONE_HISTORY_SIZE (runTicks ctxs aggState0).rmsHistory
        (c.latestAudioData.rms.getD 0) =
      ((ctxs ++ [c]).map (fun x => x.latestAudioData.rms.getD 0)).drop
        (((ctxs ++ [c]).map (fun x => x.latestAudioData.rms.getD 0)).length
          - TONE_HISTORY_SIZE) := by
    rw [runTicks_rmsHistory]
    rw [show pushTrim TONE_HISTORY_SIZE
          ((ctxs.map (fun x => x.latestAudioData.rms.getD 0)).foldl
            (pushTrim TONE_HISTORY_SIZE) aggState0.rmsHistory)
          (c.latestAudioData.rms.getD 0) =
        ((ctxs.map (fun x => x.latestAudioData.rms.getD 0)) ++
            [c.latestAudioData.rms.getD 0]).foldl
          (pushTrim TONE_HISTORY_SIZE) aggState0.rmsHistory by
      rw [List.foldl_append, List.foldl_cons, List.foldl_nil]]
    rw [foldl_pushTrim TONE_HISTORY_SIZE _ _ (by simp [aggState0])]
    simp [aggState0]
  have hev : (publishMetrics c (runTicks ctxs aggState0)).1.pause_ratio =
      (if (pushTrim TONE_HISTORY_SIZE (runTicks ctxs aggState0).rmsHistory
            (c.latestAudioData.rms.getD 0)).length > 0
        then some (calculatePauseRatio
          (pushTrim TONE_HISTORY_SIZE (runTicks ctxs aggState0).rmsHistory
            (c.latestAudioData.rms.getD 0)))
        else none) := rfl
  rw [hev, hrh, if_pos]
  have hlen : ((ctxs ++ [c]).map (fun x => x.latestAudioData.rms.getD 0)).length =
      ctxs.length + 1 := by simp
  rw [List.length_drop, hlen]
  have h30 : TONE_HISTORY_SIZE = 30 := rfl
  omega

/-- Claim C1 (amended): the published pause ratio at any tick equals
the fraction of the trailing `TONE_HISTORY_SIZE = 30` cached RMS samples
(3 seconds at the 10 Hz tick rate) that lie strictly below the
`2 × RMS_NOISE_FLOOR = 0.06` threshold; samples older than the trailing
30 ticks do not influence the value. -/
theorem pause_ratio_trailing30 (ctxs : List TickCtx) (c : TickCtx) :
    (publishMetrics c (runTicks ctxs aggState0)).1.pause_ratio =
      some (calculatePauseRatio
        (((ctxs ++ [c]).map (fun x => x.latestAudioData.rms.getD 0)).drop
          (((ctxs ++ [c]).map (fun x => x.latestAudioData.rms.getD 0)).length
            - TONE_HISTORY_SIZE))) :=
  publish_pause_window ctxs c

/-- The 31 cached RMS values of the counterexample ticks. -/
theorem pauseCex_vals :
    (((List.range 30).map pauseCexCtx ++ [pauseCexCtx 30]).map
        (fun x => x.latestAudioData.rms.getD 0)) =
      0 :: List.replicate 30 ((1 : ℚ)/2) := by
  have h31 : (List.range 31).map pauseCexCtx =
      (List.range 30).map pauseCexCtx ++ [pauseCexCtx 30] := by
    rw [show (31 : ℕ) = 30 + 1 from rfl, List.range_succ, List.map_append,
      List.map_singleton]
  rw [← h31, List.map_map]
  rw [show (31 : ℕ) = 30 + 1 from rfl, List.range_succ_eq_map, List.map_cons, List.map_map]
  congr 1

/-- Counterexample to claim C1: after 31 ticks at 10 Hz the sample of
the first tick (3 seconds old, well inside a 10-second window) has
already left the 30-sample history, so the published pause ratio is `0`
while the fraction demanded by the claim over the trailing 10-second
window is `1/31`. -/
theorem pause_ratio_cex :
    (publishMetrics (pauseCexCtx 30)
        (runTicks ((List.range 30).map pauseCexCtx) aggState0)).1.pause_ratio = some 0 ∧
      specPauseRatio 3100 pauseCexSamples = 1/31 ∧
      (0 : ℚ) ≠ 1/31 := by
  refine ⟨?_, ?_, by norm_num⟩
  · rw [publish_pause_window, pauseCex_vals]
    have hdrop : ((0 : ℚ) :: List.replicate 30 ((1 : ℚ)/2)).drop
        (((0 : ℚ) :: List.replicate 30 ((1 : ℚ)/2)).length - TONE_HISTORY_SIZE) =
        List.replicate 30 ((1 : ℚ)/2) := by
      simp [TONE_HISTORY_SIZE]
    rw [hdrop]
    have hcp : calculatePauseRatio (List.replicate 30 ((1 : ℚ)/2)) = 0 := by
      simp only [calculatePauseRatio]
      rw [if_neg (by simp)]
      have hf : (List.replicate 30 ((1 : ℚ)/2)).filter
          (fun rms => rms < RMS_NOISE_FLOOR * 2) = [] := by
        rw [List.filter_eq_nil]
        intro a ha
        rw [List.eq_of_mem_replicate ha]
        simp only [decide_eq_true_eq]
        norm_num [RMS_NOISE_FLOOR]
      rw [hf]
      simp
    rw [hcp]
  · simp only [specPauseRatio, pauseCexSamples]
    have hwin : ((List.range 31).map
          (fun i : ℕ => ((100 * ((i : ℤ) + 1), if i = 0 then (0 : ℚ) else 1/2)))).filter
        (fun p => (3100 : ℤ) - 10000 ≤ p.1) =
        (List.range 31).map
          (fun i : ℕ => ((100 * ((i : ℤ) + 1), if i = 0 then (0 : ℚ) else 1/2))) := by
      rw [List.filter_eq_self]
      intro a ha
      obtain ⟨i, _, rfl⟩ := List.mem_map.mp ha
      simp only [decide_eq_true_eq]
      have hi : (0 : ℤ) ≤ (i : ℤ) := Int.natCast_nonneg i
      omega
    rw [hwin]
    have hbelow : ((List.range 31).map
          (fun i : ℕ => ((100 * ((i : ℤ) + 1), if i = 0 then (0 : ℚ) else 1/2)))).filter
        (fun p => p.2 < RMS_NOISE_FLOOR * 2) =
        [((100 : ℤ), (0 : ℚ))] := by
      rw [show (31 : ℕ) = 30 + 1 from rfl, List.range_succ_eq_map, List.map_cons,
        List.map_map, List.filter_cons]
      rw [if_pos (by simp only [decide_eq_true_eq]; norm_num [RMS_NOISE_FLOOR])]
      have hnil : ((List.range 30).map
            ((fun i : ℕ => ((100 * ((i : ℤ) + 1), if i = 0 then (0 : ℚ) else 1/2))) ∘
              Nat.succ)).filter (fun p => p.2 < RMS_NOISE_FLOOR * 2) = [] := by
        rw [List.filter_eq_nil]
        intro a ha
        obtain ⟨i, _, rfl⟩ := List.mem_map.mp ha
        simp only [Function.comp_apply, Nat.succ_ne_zero, if_false, decide_eq_true_eq]
        norm_num [RMS_NOISE_FLOOR]
      rw [hnil]
      norm_num
    rw [hbelow]
    simp

/-- Any tick sequence from the reset state keeps `allMetrics` within
the cap (helper for the buffer-cap claim). -/
theorem runTicks_allMetrics_le (ctxs : List TickCtx) (s : AggState)
    (h : s.allMetrics.length ≤ MAX_METRICS_BUFFER) :
    (runTicks ctxs s).allMetrics.length ≤ MAX_METRICS_BUFFER := by
  induction ctxs generalizing s with
  | nil => exact h
  | cons c cs ih =>
    rw [show runTicks (c :: cs) s = runTicks cs ((publishMetrics c s).2) from rfl]
    exact ih _ (by rw [publishMetrics_allMetrics]; exact pushTrim_length_le _ _ _ h)

/-- Claim C9: after every tick's append the snapshot history never
exceeds the configured cap of 18,000 entries — both along any session
from the reset state and for a single tick from any in-cap state — and
when the cap would be exceeded, the evicted entry is the oldest (front)
one. -/
theorem metrics_buffer_cap :
    (∀ ctxs : List TickCtx,
        (runTicks ctxs aggState0).allMetrics.length ≤ MAX_METRICS_BUFFER) ∧
      (∀ (c : TickCtx) (s : AggState), s.allMetrics.length ≤ MAX_METRICS_BUFFER →
        ((publishMetrics c s).2).allMetrics.length ≤ MAX_METRICS_BUFFER) ∧
      (∀ (c : TickCtx) (s : AggState), s.allMetrics.length = MAX_METRICS_BUFFER →
        ((publishMetrics c s).2).allMetrics =
          (s.allMetrics ++ [(publishMetrics c s).1]).tail) := by
  refine ⟨fun ctxs => runTicks_allMetrics_le ctxs aggState0 (by simp [aggState0]), ?_, ?_⟩
  · intro c s h
    rw [publishMetrics_allMetrics]
    exact pushTrim_length_le _ _ _ h
  · intro c s h
    rw [publishMetrics_allMetrics]
    simp only [pushTrim]
    rw [if_pos (by simp [h])]

/-- Witness for C9: a tick on a buffer exactly at the cap evicts the
front entry. -/
theorem metrics_buffer_cap_witness :
    ((publishMetrics tickCtx0 fullBufferState).2).allMetrics =
      (fullBufferState.allMetrics ++ [(publishMetrics tickCtx0 fullBufferState).1]).tail :=
  metrics_buffer_cap.2.2 tickCtx0 fullBufferState (by simp [fullBufferState])

/-- Elements already picked survive the padding loop. -/
theorem padLoop_mem_left (picked cs : List Emotion) (x : Emotion) (hx : x ∈ picked) :
    x ∈ padLoop picked cs := by
  induction cs generalizing picked with
  | nil => exact hx
  | cons c cs ih =>
    simp only [padLoop]
    split
    · exact ih picked hx
    · exact ih (picked ++ [c]) (List.mem_append_left _ hx)

/-- Everything the padding loop returns was picked or was a candidate. -/
theorem padLoop_mem (picked cs : List Emotion) (x : Emotion)
    (hx : x ∈ padLoop picked cs) : x ∈ picked ∨ x ∈ cs := by
  induction cs generalizing picked with
  | nil => exact Or.inl hx
  | cons c cs ih =>
    simp only [padLoop] at hx
    split at hx
    · rcases ih picked hx with h | h
      · exact Or.inl h
      · exact Or.inr (List.mem_cons_of_mem _ h)
    · rcases ih (picked ++ [c]) hx with h | h
      · rcases List.mem_append.mp h with h1 | h1
        · exact Or.inl h1
        · exact Or.inr (List.mem_cons.mpr (Or.inl (List.mem_singleton.mp h1)))
      · exact Or.inr (List.mem_cons_of_mem _ h)

/-- The padding loop never duplicates a label. -/
theorem padLoop_nodup_labels (picked cs : List Emotion)
    (h : (picked.map Emotion.label).Nodup) :
    ((padLoop picked cs).map Emotion.label).Nodup := by
  induction cs generalizing picked with
  | nil => exact h
  | cons c cs ih =>
    simp only [padLoop]
    split
    · exact ih picked h
    · rename_i hfind
      refine ih (picked ++ [c]) ?_
      rw [List.map_append, List.map_singleton, List.nodup_append]
      refine ⟨h, List.nodup_singleton _, ?_⟩
      intro a ha hb
      rw [List.mem_singleton] at hb
      subst hb
      obtain ⟨p, hp, hlab⟩ := List.mem_map.mp ha
      exact hfind (List.find?_isSome.mpr ⟨p, hp, by simp [hlab]⟩)

/-- Membership transfer used when shrinking the candidate list. -/
theorem mem_append_cons_of_mem_append (picked cs : List Emotion) (c0 : Emotion) :
    ∀ z ∈ picked ++ cs, z ∈ picked ++ c0 :: cs := by
  intro z hz
  rcases List.mem_append.mp hz with h | h
  · exact List.mem_append_left _ h
  · exact List.mem_append_right _ (List.mem_cons_of_mem _ h)

/-- Membership transfer used when growing the picked list. -/
theorem mem_append_cons_of_mem_concat (picked cs : List Emotion) (c0 : Emotion) :
    ∀ z ∈ (picked ++ [c0]) ++ cs, z ∈ picked ++ c0 :: cs := by
  intro z hz
  rcases List.mem_append.mp hz with h | h
  · rcases List.mem_append.mp h with h1 | h1
    · exact List.mem_append_left _ h1
    · exact List.mem_append_right _ (List.mem_cons.mpr (Or.inl (List.mem_singleton.mp h1)))
  · exact List.mem_append_right _ (List.mem_cons_of_mem _ h)

/-- When labels are injective across picked and candidates, every
candidate ends up in the padding loop's output (itself or as the
already-picked element with the same label, which is then equal). -/
theorem padLoop_cover (picked cs : List Emotion)
    (hinj : ∀ x ∈ picked ++ cs, ∀ y ∈ picked ++ cs, x.label = y.label → x = y) :
    ∀ c ∈ cs, c ∈ padLoop picked cs := by
  induction cs generalizing picked with
  | nil => intro c hc; cases hc
  | cons c0 cs ih =>
    intro c hc
    simp only [padLoop]
    split
    · rename_i hfind
      rw [List.find?_isSome] at hfind
      obtain ⟨p, hp, hlab⟩ := hfind
      have hpc0 : p = c0 :=
        hinj p (List.mem_append_left _ hp) c0
          (List.mem_append_right _ (List.mem_cons_self _ _)) (by simpa using hlab)
      rcases List.mem_cons.mp hc with rfl | hc'
      · exact padLoop_mem_left _ _ _ (hpc0 ▸ hp)
      · refine ih picked (fun x hx y hy => hinj x
          (mem_append_cons_of_mem_append picked cs c0 x hx) y
          (mem_append_cons_of_mem_append picked cs c0 y hy)) c hc'
    · rcases List.mem_cons.mp hc with rfl | hc'
      · exact padLoop_mem_left _ _ _
          (List.mem_append_right _ (List.mem_singleton_self _))
      · refine ih (picked ++ [c0]) (fun x hx y hy => hinj x
          (mem_append_cons_of_mem_concat picked cs c0 x hx) y
          (mem_append_cons_of_mem_concat picked cs c0 y hy)) c hc'

/-- Length of the padding loop's output: one new entry per candidate
not already picked, when candidate labels are distinct. -/
theorem padLoop_length (picked cs : List Emotion)
    (hnd : (cs.map Emotion.label).Nodup)
    (hinj : ∀ x ∈ picked ++ cs, ∀ y ∈ picked ++ cs, x.label = y.label → x = y) :
    (padLoop picked cs).length =
      picked.length + (cs.filter (fun c => decide (c ∉ picked))).length := by
  induction cs generalizing picked with
  | nil => simp [padLoop]
  | cons c0 cs ih =>
    simp only [padLoop]
    split
    · rename_i hfind
      rw [List.find?_isSome] at hfind
      obtain ⟨p, hp, hlab⟩ := hfind
      have hpc0 : p = c0 :=
        hinj p (List.mem_append_left _ hp) c0
          (List.mem_append_right _ (List.mem_cons_self _ _)) (by simpa using hlab)
      have hc0 : c0 ∈ picked := hpc0 ▸ hp
      rw [List.filter_cons, if_neg (by simp [hc0])]
      exact ih picked (by simpa using hnd.of_cons) (fun x hx y hy => hinj x
        (mem_append_cons_of_mem_append picked cs c0 x hx) y
        (mem_append_cons_of_mem_append picked cs c0 y hy))
    · rename_i hfind
      have hc0 : c0 ∉ picked := by
        intro hmem
        exact hfind (List.find?_isSome.mpr ⟨c0, hmem, by simp⟩)
      rw [List.filter_cons, if_pos (by simp [hc0])]
      rw [ih (picked ++ [c0]) (by simpa using hnd.of_cons) (fun x hx y hy => hinj x
        (mem_append_cons_of_mem_concat picked cs c0 x hx) y
        (mem_append_cons_of_mem_concat picked cs c0 y hy))]
      have hrest : cs.filter (fun c => decide (c ∉ picked ++ [c0])) =
          cs.filter (fun c => decide (c ∉ picked)) := by
        refine List.filter_congr ?_
        intro c' hc'
        have hlabne : c'.label ≠ c0.label := by
          intro heq
          have : c0.label ∈ cs.map Emotion.label := List.mem_map.mpr ⟨c', hc', heq⟩
          rw [List.map_cons] at hnd
          exact (List.nodup_cons.mp hnd).1 this
        have hne : c' ≠ c0 := fun heq => hlabne (by rw [heq])
        simp [List.mem_append, hne]
      rw [hrest]
      simp only [List.length_append, List.length_singleton, List.length_cons,
        List.length_nil]
      omega

/-- On a list sorted by descending score, filtering by
`threshold ≤ score` keeps exactly a prefix. -/
theorem filter_score_eq_takeWhile (thr : ℚ) (l : List Emotion)
    (hs : List.Sorted byScoreDesc l) :
    l.filter (fun e => decide (thr ≤ e.score)) =
      l.takeWhile (fun e => decide (thr ≤ e.score)) := by
  induction l with
  | nil => rfl
  | cons a l ih =>
    by_cases ha : thr ≤ a.score
    · rw [List.filter_cons, if_pos (by simpa using ha),
        List.takeWhile_cons_of_pos (by simpa using ha), ih hs.of_cons]
    · rw [List.filter_cons, if_neg (by simpa using ha),
        List.takeWhile_cons_of_neg (by simpa using ha)]
      rw [List.filter_eq_nil_iff.mpr ?_]
      intro b hb
      simp only [decide_eq_true_eq]
      intro hthr
      exact ha (le_trans hthr (List.rel_of_sorted_cons hs b hb))

/-- Full characterization of `classifyGoEmotions` for a score list with
distinct labels (the GoEmotions model scores each label once): above-
threshold emotions are all kept, nothing is invented, labels stay
distinct, the output is exactly the above-threshold set when at least
`topK` emotions reach the threshold, is padded to `min topK raw.length`
entries otherwise, and every padded entry outscores every excluded one. -/
theorem classifyGo_spec (raw : List Emotion) (thr : ℚ) (k : ℕ)
    (hnd : (raw.map Emotion.label).Nodup) :
    (∀ e ∈ raw, thr ≤ e.score → e ∈ classifyGoEmotions raw thr k) ∧
      (∀ e ∈ classifyGoEmotions raw thr k, e ∈ raw) ∧
      ((classifyGoEmotions raw thr k).map Emotion.label).Nodup ∧
      (k ≤ (raw.filter (fun e => thr ≤ e.score)).length →
        ∀ e ∈ classifyGoEmotions raw thr k, thr ≤ e.score) ∧
      ((raw.filter (fun e => thr ≤ e.score)).length < k →
        (classifyGoEmotions raw thr k).length = min k raw.length) ∧
      (∀ e ∈ classifyGoEmotions raw thr k, ∀ q ∈ raw,
        q ∉ classifyGoEmotions raw thr k → q.score ≤ e.score) := by
  have hperm : List.Perm (List.insertionSort byScoreDesc raw) raw :=
    List.perm_insertionSort byScoreDesc raw
  have hsort : List.Sorted byScoreDesc (List.insertionSort byScoreDesc raw) :=
    List.sorted_insertionSort byScoreDesc raw
  have hnds : ((List.insertionSort byScoreDesc raw).map Emotion.label).Nodup :=
    (hperm.map Emotion.label).nodup_iff.mpr hnd
  have hinj : ∀ x ∈ List.insertionSort byScoreDesc raw,
      ∀ y ∈ List.insertionSort byScoreDesc raw, x.label = y.label → x = y :=
    List.inj_on_of_nodup_map hnds
  have hout : classifyGoEmotions raw thr k =
      padLoop
        ((List.insertionSort byScoreDesc raw).filter (fun e => decide (thr ≤ e.score)))
        ((List.insertionSort byScoreDesc raw).take k) := rfl
  have hsubP : ∀ z ∈ (List.insertionSort byScoreDesc raw).filter
      (fun e => decide (thr ≤ e.score)), z ∈ List.insertionSort byScoreDesc raw :=
    fun z hz => (List.mem_filter.mp hz).1
  have hsubT : ∀ z ∈ (List.insertionSort byScoreDesc raw).take k,
      z ∈ List.insertionSort byScoreDesc raw :=
    fun z hz => List.take_subset k _ hz
  have hinjPT : ∀ x ∈ (List.insertionSort byScoreDesc raw).filter
        (fun e => decide (thr ≤ e.score)) ++ (List.insertionSort byScoreDesc raw).take k,
      ∀ y ∈ (List.insertionSort byScoreDesc raw).filter
        (fun e => decide (thr ≤ e.score)) ++ (List.insertionSort byScoreDesc raw).take k,
      x.label = y.label → x = y := by
    intro x hx y hy
    have hx' : x ∈ List.insertionSort byScoreDesc raw := by
      rcases List.mem_append.mp hx with h | h
      exacts [hsubP x h, hsubT x h]
    have hy' : y ∈ List.insertionSort byScoreDesc raw := by
      rcases List.mem_append.mp hy with h | h
      exacts [hsubP y h, hsubT y h]
    exact hinj x hx' y hy'
  have hprefix : List.IsPrefix
      ((List.insertionSort byScoreDesc raw).filter (fun e => decide (thr ≤ e.score)))
      (List.insertionSort byScoreDesc raw) := by
    rw [filter_score_eq_takeWhile thr _ hsort]
    exact List.takeWhile_prefix _
  have hpicked_take : (List.insertionSort byScoreDesc raw).filter
        (fun e => decide (thr ≤ e.score)) =
      (List.insertionSort byScoreDesc raw).take
        ((List.insertionSort byScoreDesc raw).filter
          (fun e => decide (thr ≤ e.score))).length :=
    List.prefix_iff_eq_take.mp hprefix
  have hAlen : ((List.insertionSort byScoreDesc raw).filter
        (fun e => decide (thr ≤ e.score))).length =
      (raw.filter (fun e => decide (thr ≤ e.score))).length :=
    (hperm.filter _).length_eq
  refine ⟨?_, ?_, ?_, ?_, ?_, ?_⟩
  · -- every above-threshold emotion appears
    intro e he hsc
    rw [hout]
    exact padLoop_mem_left _ _ _
      (List.mem_filter.mpr ⟨hperm.mem_iff.mpr he, by simpa using hsc⟩)
  · -- nothing invented
    intro e he
    rw [hout] at he
    rcases padLoop_mem _ _ _ he with h | h
    · exact hperm.mem_iff.mp (hsubP e h)
    · exact hperm.mem_iff.mp (hsubT e h)
  · -- labels distinct
    rw [hout]
    exact padLoop_nodup_labels _ _
      (hnds.sublist ((List.filter_sublist _).map Emotion.label))
  · -- enough above threshold: output is exactly the above-threshold set
    intro hk e he
    rw [hout] at he
    rcases padLoop_mem _ _ _ he with h | h
    · simpa using (List.mem_filter.mp h).2
    · have hkp : k ≤ ((List.insertionSort byScoreDesc raw).filter
          (fun e => decide (thr ≤ e.score))).length := by
        rw [hAlen]
        exact hk
      have htk : (List.insertionSort byScoreDesc raw).take k =
          ((List.insertionSort byScoreDesc raw).filter
            (fun e => decide (thr ≤ e.score))).take k := by
        conv_rhs => rw [hpicked_take]
        rw [List.take_take, min_eq_left hkp]
      rw [htk] at h
      have he' := List.take_subset k _ h
      simpa using (List.mem_filter.mp he').2
  · -- padding up to min k raw.length
    intro hk
    rw [hout]
    rw [padLoop_length _ _
      (hnds.sublist ((List.take_sublist k _).map Emotion.label)) hinjPT]
    have hkp : ((List.insertionSort byScoreDesc raw).filter
        (fun e => decide (thr ≤ e.score))).length < k := by
      rw [hAlen]
      exact hk
    have hple : ((List.insertionSort byScoreDesc raw).filter
        (fun e => decide (thr ≤ e.score))).length ≤
        ((List.insertionSort byScoreDesc raw).take k).length := by
      rw [List.length_take]
      have h1 : ((List.insertionSort byScoreDesc raw).filter
          (fun e => decide (thr ≤ e.score))).length ≤
          (List.insertionSort byScoreDesc raw).length :=
        (List.filter_sublist _).length_le
      omega
    have hsplit : (List.insertionSort byScoreDesc raw).take k =
        ((List.insertionSort byScoreDesc raw).filter
          (fun e => decide (thr ≤ e.score))) ++
        (((List.insertionSort byScoreDesc raw).take k).drop
          (((List.insertionSort byScoreDesc raw).filter
            (fun e => decide (thr ≤ e.score))).length)) := by
      conv_lhs => rw [← List.take_append_drop
        (((List.insertionSort byScoreDesc raw).filter
          (fun e => decide (thr ≤ e.score))).length)
        ((List.insertionSort byScoreDesc raw).take k)]
      congr 1
      rw [List.take_take, min_eq_left (le_of_lt hkp)]
      exact hpicked_take.symm
    have hnodup_tk : ((List.insertionSort byScoreDesc raw).take k).Nodup :=
      (hnds.of_map Emotion.label).sublist (List.take_sublist k _)
    have hfilter : ((List.insertionSort byScoreDesc raw).take k).filter
        (fun c => decide (c ∉ (List.insertionSort byScoreDesc raw).filter
          (fun e => decide (thr ≤ e.score)))) =
        (((List.insertionSort byScoreDesc raw).take k).drop
          (((List.insertionSort byScoreDesc raw).filter
            (fun e => decide (thr ≤ e.score))).length)) := by
      conv_lhs => rw [hsplit]
      rw [List.filter_append]
      have hdisj : List.Disjoint
          ((List.insertionSort byScoreDesc raw).filter (fun e => decide (thr ≤ e.score)))
          (((List.insertionSort byScoreDesc raw).take k).drop
            (((List.insertionSort byScoreDesc raw).filter
              (fun e => decide (thr ≤ e.score))).length)) := by
        have := hnodup_tk
        rw [hsplit, List.nodup_append] at this
        exact this.2.2
      rw [List.filter_eq_nil_iff.mpr ?_, List.filter_eq_self.mpr ?_, List.nil_append]
      · intro a ha
        simp only [decide_eq_true_eq]
        exact fun hmem => hdisj hmem ha
      · intro a ha
        simp only [decide_eq_true_eq, not_not]
        exact ha
    rw [hfilter, List.length_drop, List.length_take, List.length_insertionSort]
    have h1 : ((List.insertionSort byScoreDesc raw).filter
        (fun e => decide (thr ≤ e.score))).length ≤ min k raw.length := by
      rw [List.length_take, List.length_insertionSort] at hple
      omega
    omega
  · -- padded entries outscore excluded ones
    intro e he q hq hqout
    rw [hout] at he hqout
    have hq_s : q ∈ List.insertionSort byScoreDesc raw := hperm.mem_iff.mpr hq
    have hq_np : q ∉ (List.insertionSort byScoreDesc raw).filter
        (fun e => decide (thr ≤ e.score)) :=
      fun hp => hqout (padLoop_mem_left _ _ _ hp)
    have hq_score : ¬ thr ≤ q.score := by
      intro hsc
      exact hq_np (List.mem_filter.mpr ⟨hq_s, by simpa using hsc⟩)
    rcases padLoop_mem _ _ _ he with h | h
    · have he_sc : thr ≤ e.score := by simpa using (List.mem_filter.mp h).2
      exact le_trans (le_of_lt (lt_of_not_le hq_score)) he_sc
    · have hq_nt : q ∉ (List.insertionSort byScoreDesc raw).take k :=
        fun ht => hqout (padLoop_cover _ _ hinjPT q ht)
      have hq_app : q ∈ (List.insertionSort byScoreDesc raw).take k ++
          (List.insertionSort byScoreDesc raw).drop k := by
        rw [List.take_append_drop]
        exact hq_s
      have hq_drop : q ∈ (List.insertionSort byScoreDesc raw).drop k := by
        rcases List.mem_append.mp hq_app with h1 | h1
        · exact absurd h1 hq_nt
        · exact h1
      have hpw : List.Pairwise byScoreDesc
          ((List.insertionSort byScoreDesc raw).take k ++
            (List.insertionSort byScoreDesc raw).drop k) := by
        rw [List.take_append_drop]
        exact hsort
      exact (List.pairwise_append.mp hpw).2.2 e h q hq_drop

/-- Claim C6: for every score list (one score per distinct emotion
label, as the model produces), the classification output with the
`0.30` threshold and `K = 3` contains every emotion reaching the
threshold and nothing from outside the list, contains *only*
above-threshold emotions when at least `K` reach the threshold, is
padded with the highest-scoring remaining emotions up to
`min K raw.length` when fewer do, and never lists a label twice. -/
theorem classify_threshold_topk (raw : List Emotion)
    (hnd : (raw.map Emotion.label).Nodup) :
    (∀ e ∈ raw, 3/10 ≤ e.score → e ∈ classifyGoEmotions raw (3/10) 3) ∧
      (∀ e ∈ classifyGoEmotions raw (3/10) 3, e ∈ raw) ∧
      ((classifyGoEmotions raw (3/10) 3).map Emotion.label).Nodup ∧
      (3 ≤ (raw.filter (fun e => 3/10 ≤ e.score)).length →
        ∀ e ∈ classifyGoEmotions raw (3/10) 3, 3/10 ≤ e.score) ∧
      ((raw.filter (fun e => 3/10 ≤ e.score)).length < 3 →
        (classifyGoEmotions raw (3/10) 3).length = min 3 raw.length) ∧
      (∀ e ∈ classifyGoEmotions raw (3/10) 3, ∀ q ∈ raw,
        q ∉ classifyGoEmotions raw (3/10) 3 → q.score ≤ e.score) :=
  classifyGo_spec raw (3/10) 3 hnd

/-- Witness for C6 on a concrete list of four distinctly labelled
scores. -/
theorem classify_threshold_topk_witness :
    (∀ e ∈ emotionScores0, 3/10 ≤ e.score →
        e ∈ classifyGoEmotions emotionScores0 (3/10) 3) ∧
      (∀ e ∈ classifyGoEmotions emotionScores0 (3/10) 3, e ∈ emotionScores0) ∧
      ((classifyGoEmotions emotionScores0 (3/10) 3).map Emotion.label).Nodup ∧
      (3 ≤ (emotionScores0.filter (fun e => 3/10 ≤ e.score)).length →
        ∀ e ∈ classifyGoEmotions emotionScores0 (3/10) 3, 3/10 ≤ e.score) ∧
      ((emotionScores0.filter (fun e => 3/10 ≤ e.score)).length < 3 →
        (classifyGoEmotions emotionScores0 (3/10) 3).length = min 3 emotionScores0.length) ∧
      (∀ e ∈ classifyGoEmotions emotionScores0 (3/10) 3, ∀ q ∈ emotionScores0,
        q ∉ classifyGoEmotions emotionScores0 (3/10) 3 → q.score ≤ e.score) :=
  classify_threshold_topk emotionScores0 (by decide)
